import Mathlib

/-!
Shallow embedding of `main_V3.py` (Koikatsu card sorter).

The program recursively scans a source directory, classifies each file by
content sniffing, and copies it into a fixed destination taxonomy rooted at
`SORTED_ROOT`.  The embedding models:

* the path helpers the program uses (`os.path.normpath`, `os.path.join`,
  `os.path.splitext`, `os.path.basename`, `str.lower`, `str.upper`),
  re-implemented here on `List Char` so all definitions compute in the kernel;
* `unique_path` (collision-free destination naming), with the unbounded
  `while os.path.exists` loop realised with a fuel of `|existing| + 1`
  probes, which is proved sufficient below;
* `detect_koikatsu_card_type` (the score-based classifier), with the file's
  raw bytes and decoded image dimensions supplied as oracles
  (`Option (List Nat)` / `Option (Nat × Nat)`; `none` models the
  corresponding `except Exception` path of the source);
* `is_pure_mod_zip` over the archive's entry listing
  (`none` models a raised enumeration error);
* `scan_path`, as a fuel-indexed recursion `scanF` whose single step
  `scanStep` transcribes the source decision tree.  The filesystem is a tree
  (`FSTree`); a file carries the oracles for its byte content, image
  dimensions, archive extraction result (`none` = extraction raises) and
  archive entry listing.  Side effects are made explicit in `ScanState`:
  the run counters `COUNTS`, the set of existing destination paths consulted
  by `unique_path` (each copy creates its destination), and the list of copy
  events.  A raised Python exception that `scan_path` does not catch is the
  boolean `true` in the result pair; the state at raise time is preserved,
  matching mutation of the global `COUNTS`.
-/

namespace CardSorter

/-! ### String helpers (Python `str` / `os.path` operations) -/

/-- Python `str.lower` (ASCII range, as used by the program). -/
def lowerStr (s : String) : String := ⟨s.data.map Char.toLower⟩

/-- Python `str.upper` (ASCII range, as used by the program). -/
def upperStr (s : String) : String := ⟨s.data.map Char.toUpper⟩

/-- Python `s.startswith(p)`. -/
def startsW (s p : String) : Bool := p.data.isPrefixOf s.data

/-- Python `s.endswith(p)`. -/
def endsW (s p : String) : Bool := p.data.isSuffixOf s.data

/-- Python `s.split('/')` on the character list. -/
def splitSlash : List Char → List (List Char)
  | [] => [[]]
  | c :: rest =>
      match splitSlash rest with
      | [] => [[]]
      | g :: gs => if c = '/' then [] :: g :: gs else (c :: g) :: gs

/-- Python `'/'.join` on character-list components. -/
def joinSlash : List (List Char) → List Char
  | [] => []
  | [g] => g
  | g :: gs => g ++ '/' :: joinSlash gs

/-- Python `posixpath.normpath`: collapse `''`/`'.'` components, resolve
`'..'`, and keep the leading-slash convention (`//` is preserved, `///…`
collapses to `/`). -/
def normpath (p : String) : String :=
  if p = "" then "." else
  let cs := p.data
  let initialSlashes : Nat :=
    match cs with
    | '/' :: '/' :: '/' :: _ => 1
    | '/' :: '/' :: _ => 2
    | '/' :: _ => 1
    | _ => 0
  let comps := splitSlash cs
  let newComps := comps.foldl
    (fun acc comp =>
      if comp = [] ∨ comp = ['.'] then acc
      else if comp ≠ ['.', '.'] ∨ (initialSlashes = 0 ∧ acc = []) ∨ acc.headD [] = ['.', '.']
        then comp :: acc
      else acc.tail)
    []
  let res := List.replicate initialSlashes '/' ++ joinSlash newComps.reverse
  if res = [] then "." else ⟨res⟩

/-- Python `posixpath.join(a, b)` (the two-argument form the program uses). -/
def pjoin (a b : String) : String :=
  if startsW b "/" then b
  else if a = "" ∨ endsW a "/" then a ++ b
  else a ++ "/" ++ b

/-- Python `os.path.basename`: everything after the last `/`. -/
def basename (p : String) : String := ⟨(splitSlash p.data).getLastD []⟩

/-- Index of the last occurrence of `c`, or `-1` when absent
(Python `str.rfind`). -/
def lastIdx (c : Char) (l : List Char) : Int :=
  (l.foldl (fun (q : Int × Int) a => (q.1 + 1, if a = c then q.1 + 1 else q.2)) (-1, -1)).2

/-- Python `posixpath.splitext`: split at the last dot, unless every
character between the last slash and that dot is itself a dot (so `.bashrc`
style names keep their dot in the stem). -/
def splitext (p : String) : String × String :=
  let cs := p.data
  let sepIdx : Int := lastIdx '/' cs
  let dotIdx : Int := lastIdx '.' cs
  if sepIdx < dotIdx then
    if ((cs.take dotIdx.toNat).drop (sepIdx + 1).toNat).all (fun c => c = '.') then (p, "")
    else (⟨cs.take dotIdx.toNat⟩, ⟨cs.drop dotIdx.toNat⟩)
  else (p, "")

/-- Python `name.strip("/")`: drop leading and trailing slashes. -/
def stripSlashes (s : String) : List Char :=
  ((s.data.dropWhile (fun c => c = '/')).reverse.dropWhile (fun c => c = '/')).reverse

/-- First path segment of an archive entry name:
`name.strip("/").split("/", 1)[0]`. -/
def firstSeg (s : String) : String := ⟨(stripSlashes s).takeWhile (fun c => c ≠ '/')⟩

/-! ### Decimal rendering of `Nat` (Python `f"{counter}"`) -/

/-- Decimal digits of `n`, most significant first; the first argument is
recursion fuel (`n + 1` always suffices since `n < 10 ^ (n + 1)`). -/
def natChars : Nat → Nat → List Char
  | 0, _ => []
  | fuel + 1, n =>
      if n < 10 then [Nat.digitChar n]
      else natChars fuel (n / 10) ++ [Nat.digitChar (n % 10)]

/-- Decimal string of a natural number (Python `str(counter)`). -/
def natStr (n : Nat) : String := ⟨natChars (n + 1) n⟩

/-! ### Byte-content search (Python `bytes.__contains__` / `bytes.count`) -/

/-- Byte string of an ASCII literal such as `b"KoiKatuScene"`. -/
def asciiBytes (s : String) : List Nat := s.data.map Char.toNat

/-- Python `pat in data` for byte strings. -/
def hasSub (pat : List Nat) : List Nat → Bool
  | [] => pat.isEmpty
  | b :: rest => pat.isPrefixOf (b :: rest) || hasSub pat rest

/-- Worker for `countOcc`: `skip` positions are still covered by the last
counted occurrence (Python counts non-overlapping occurrences). -/
def countOccGo (pat : List Nat) : List Nat → Nat → Nat
  | [], _ => 0
  | _ :: rest, skip + 1 => countOccGo pat rest skip
  | b :: rest, 0 =>
      if pat.isPrefixOf (b :: rest) then 1 + countOccGo pat rest (pat.length - 1)
      else countOccGo pat rest 0

/-- Python `data.count(pat)` (non-overlapping occurrences, nonempty `pat`). -/
def countOcc (pat s : List Nat) : Nat := countOccGo pat s 0

/-! ### Card classifier (`detect_koikatsu_card_type`) -/

def sceneMarker1 : List Nat := asciiBytes "KoiKatuScene"
def sceneMarker2 : List Nat := asciiBytes "KoikatuScene"
def constraintsMarker : List Nat := asciiBytes "<constraints"
def itemInfoMarker : List Nat := asciiBytes "<itemInfo"
def clothesMarker : List Nat := asciiBytes "KoiKatuClothes"
def charaMarker1 : List Nat := asciiBytes "KoiKatuChara"
def charaMarker2 : List Nat := asciiBytes "KoikatuChara"

/-- Combined occurrence count of both character-marker spellings. -/
def charaCount (data : List Nat) : Nat :=
  countOcc charaMarker1 data + countOcc charaMarker2 data

/-- The `score["Scene"]` total of `detect_koikatsu_card_type`. -/
def sceneScore (path : String) (dims : Option (Nat × Nat)) (data : List Nat) : Nat :=
  (if hasSub sceneMarker1 data || hasSub sceneMarker2 data then 4 else 0)
  + (if hasSub constraintsMarker data || hasSub itemInfoMarker data then 3 else 0)
  + (if 2 ≤ charaCount data then 4 else 0)
  + (match dims with
     | some (w, h) => if w = 320 ∧ h = 180 then 3 else 0
     | none => 0)
  + (if startsW (upperStr (basename path)) "KKSCENE_" then 1 else 0)

/-- The `score["Character"]` total of `detect_koikatsu_card_type`. -/
def charaScore (dims : Option (Nat × Nat)) (data : List Nat) : Nat :=
  (if hasSub charaMarker1 data || hasSub charaMarker2 data then 3 else 0)
  + (match dims with
     | some (w, h) =>
         if (w = 252 ∧ h = 352) ∨ (w = 252 ∧ h = 353) ∨ (w = 504 ∧ h = 704) then 1 else 0
     | none => 0)

/-- The `score["Clothing"]` total of `detect_koikatsu_card_type`. -/
def clothScore (data : List Nat) : Nat := if hasSub clothesMarker data then 4 else 0

/-- `detect_koikatsu_card_type(path)`.  `dims` is the oracle for
`Image.open(path).size` (`none` = decode failure, which only withholds the
dimension signal); `bytesRead` is the oracle for `open(path,"rb").read()`
(`none` = read failure, which returns `"Unknown"` at once).  The final
`max(score, key=score.get)` iterates the insertion order
`Scene, Character, Clothing` and keeps the first maximum. -/
def detect_koikatsu_card_type (path : String) (dims : Option (Nat × Nat))
    (bytesRead : Option (List Nat)) : String :=
  match bytesRead with
  | none => "Unknown"
  | some data =>
      let sScene := sceneScore path dims data
      let sChara := charaScore dims data
      let sCloth := clothScore data
      let cardType :=
        if sChara > sScene then (if sCloth > sChara then "Clothing" else "Character")
        else (if sCloth > sScene then "Clothing" else "Scene")
      let best :=
        if cardType = "Scene" then sScene
        else if cardType = "Character" then sChara
        else sCloth
      if best = 0 then "Unknown" else cardType

/-! ### `is_pure_mod_zip` -/

/-- The `top_level` set built by `is_pure_mod_zip`: lower-cased first path
segment of every entry name. -/
def topLevelSegs (names : List String) : Finset String :=
  (names.map (fun n => lowerStr (firstSeg n))).toFinset

/-- `is_pure_mod_zip(zip_path)`.  The argument is the oracle for
`zipfile.ZipFile(zip_path).namelist()`; `none` models any raised enumeration
error, which the source catches and turns into `False`. -/
def is_pure_mod_zip : Option (List String) → Bool
  | none => false
  | some names => decide (topLevelSegs names = ({"abdata", "manifest.xml"} : Finset String))

/-! ### `unique_path` -/

/-- The candidate filename `f"{name}({counter}){ext}"`. -/
def candName (stem : String) (k : Nat) (ext : String) : String :=
  stem ++ "(" ++ natStr k ++ ")" ++ ext

/-- The `while os.path.exists(dest)` loop of `unique_path`, probing
`stem(k)ext`, `stem(k+1)ext`, …; `fs` is the set of existing paths.  The
fuel only bounds the number of probes; `|fs| + 1` probes are proved
sufficient to find a free path. -/
def upLoop (fs : List String) (folder stem ext : String) : Nat → Nat → String
  | k, 0 => pjoin folder (candName stem k ext)
  | k, fuel + 1 =>
      let dest := pjoin folder (candName stem k ext)
      if dest ∈ fs then upLoop fs folder stem ext (k + 1) fuel else dest

/-- `unique_path(folder, filename)` over the existing paths `fs`
(the oracle for `os.path.exists`). -/
def unique_path (fs : List String) (folder filename : String) : String :=
  let se := splitext filename
  let dest := pjoin folder filename
  if dest ∈ fs then upLoop fs folder se.1 se.2 1 (fs.length + 1) else dest

/-! ### Filesystem model and scan state -/

/-- A filesystem entry.  A file carries the oracles for the library calls
the scanner may make on it: its raw bytes (`open(...).read()`), its decoded
image dimensions (`PIL.Image.open(...).size`), the listing of the scratch
directory after `extract_archive` (`none` = extraction raises), and the
archive entry names (`zipfile.ZipFile(...).namelist()`; `none` = raises). -/
inductive FSTree where
  | dir (entries : List (String × FSTree))
  | file (bytesRead : Option (List Nat)) (dims : Option (Nat × Nat))
      (extractResult : Option (List (String × FSTree)))
      (zipEntries : Option (List String))

/-- Predicate `os.path.isdir` on a modelled entry. -/
def isDirT : FSTree → Bool
  | FSTree.dir _ => true
  | FSTree.file _ _ _ _ => false

/-- The scan for a `BepInEx` child:
`for entry in entries: if entry.lower() == "bepinex" and isdir(...)`.
Returns the first entry whose lower-cased name is `bepinex` and which is a
directory. -/
def findBep : List (String × FSTree) → Option (String × FSTree)
  | [] => none
  | e :: rest =>
      if lowerStr e.1 = "bepinex" ∧ isDirT e.2 = true then some e else findBep rest

/-- The global `COUNTS` dictionary. -/
structure Counts where
  character : Nat
  clothing : Nat
  scene : Nat
  mod : Nat
  extra : Nat
  archives : Nat
  errors : Nat
  totalFiles : Nat
deriving DecidableEq

/-- `COUNTS[key] += 1` for a key computed at run time; `none` is Python's
`KeyError` (the dictionary has exactly the eight keys above). -/
def incrCount (c : Counts) (key : String) : Option Counts :=
  if key = "Character" then some { c with character := c.character + 1 }
  else if key = "Clothing" then some { c with clothing := c.clothing + 1 }
  else if key = "Scene" then some { c with scene := c.scene + 1 }
  else if key = "Mod" then some { c with mod := c.mod + 1 }
  else if key = "Extra" then some { c with extra := c.extra + 1 }
  else if key = "Archives" then some { c with archives := c.archives + 1 }
  else if key = "Errors" then some { c with errors := c.errors + 1 }
  else if key = "TotalFiles" then some { c with totalFiles := c.totalFiles + 1 }
  else none

/-- A filesystem side effect performed by the scanner. -/
inductive Ev where
  | copyFile (src dest : String)
  | copyTree (src dest : String)
  | extractTo (src dest : String)
deriving DecidableEq

/-- The mutable run state threaded through `scan_path`: the counters, the
existing destination paths consulted by `unique_path` (every copy creates
its destination path), and the copy events in order. -/
structure ScanState where
  counts : Counts
  existing : List String
  events : List Ev
deriving DecidableEq

/-- The run configuration: the normalized `SORTED_ROOT`, the five
`output_dirs` entries, and the scratch location used for archive
extraction (`tempfile.TemporaryDirectory`). -/
structure Config where
  sortedRoot : String
  charaDir : String
  clothDir : String
  sceneDir : String
  modDir : String
  extraDir : String
  tmpRoot : String

/-- The `except Exception` branch of the archive case: copy the original
archive into Extra under a unique name and count an error
(`TotalFiles` is not incremented there). -/
def archiveFail (cfg : Config) (path filename : String) (st : ScanState) : ScanState :=
  let dest := unique_path st.existing cfg.extraDir filename
  { counts := { st.counts with errors := st.counts.errors + 1 },
    existing := st.existing ++ [dest],
    events := st.events ++ [Ev.copyFile path dest] }

/-- One step of `scan_path(path, output_dirs)`; `next` is the recursive
call.  The boolean result is `true` when an exception escapes this call
(the only uncaught raise in the model is the `COUNTS[card_type]` lookup
with a key that is not in the dictionary). -/
def scanStep (cfg : Config) (next : String → FSTree → ScanState → ScanState × Bool)
    (path : String) (t : FSTree) (st : ScanState) : ScanState × Bool :=
  if startsW (normpath path) cfg.sortedRoot then (st, false)
  else
    match t with
    | FSTree.dir entries =>
        match findBep entries with
        | some (nm, _) =>
            let dest := unique_path st.existing cfg.sortedRoot "BepInEx"
            ({ counts := { st.counts with totalFiles := st.counts.totalFiles + 1 },
               existing := st.existing ++ [dest],
               events := st.events ++ [Ev.copyTree (pjoin path nm) dest] }, false)
        | none =>
            entries.foldl
              (fun acc e => if acc.2 then acc else next (pjoin path e.1) e.2 acc.1)
              (st, false)
    | FSTree.file bytesRead dims extractResult zipEntries =>
        let lower := lowerStr path
        let filename := basename path
        if endsW lower ".zipmod" then
          let dest := unique_path st.existing cfg.modDir filename
          ({ counts := { st.counts with
               mod := st.counts.mod + 1,
               totalFiles := st.counts.totalFiles + 1 },
             existing := st.existing ++ [dest],
             events := st.events ++ [Ev.copyFile path dest] }, false)
        else if endsW lower ".zip" || endsW lower ".7z" || endsW lower ".rar" then
          let st1 : ScanState :=
            { st with counts := { st.counts with archives := st.counts.archives + 1 } }
          match extractResult with
          | none => (archiveFail cfg path filename st1, false)
          | some tmpEntries =>
              match findBep tmpEntries with
              | some (nm, _) =>
                  let dest := unique_path st1.existing cfg.sortedRoot "BepInEx"
                  ({ counts := { st1.counts with totalFiles := st1.counts.totalFiles + 1 },
                     existing := st1.existing ++ [dest],
                     events := st1.events ++ [Ev.copyTree (pjoin cfg.tmpRoot nm) dest] }, false)
              | none =>
                  if endsW lower ".zip" && is_pure_mod_zip zipEntries then
                    let destDir := unique_path st1.existing cfg.modDir (splitext filename).1
                    ({ counts := { st1.counts with
                         mod := st1.counts.mod + 1,
                         totalFiles := st1.counts.totalFiles + 1 },
                       existing := st1.existing ++ [destDir],
                       events := st1.events ++ [Ev.extractTo path destDir] }, false)
                  else
                    let r := next cfg.tmpRoot (FSTree.dir tmpEntries) st1
                    if r.2 then (archiveFail cfg path filename r.1, false) else (r.1, false)
        else if endsW lower ".png" then
          let cardType := detect_koikatsu_card_type path dims bytesRead
          let destDir :=
            if cardType = "Character" then cfg.charaDir
            else if cardType = "Clothing" then cfg.clothDir
            else if cardType = "Scene" then cfg.sceneDir
            else cfg.extraDir
          let dest := unique_path st.existing destDir filename
          let st1 : ScanState :=
            { st with existing := st.existing ++ [dest],
                      events := st.events ++ [Ev.copyFile path dest] }
          match incrCount st1.counts cardType with
          | none => (st1, true)
          | some c => ({ st1 with counts := { c with totalFiles := c.totalFiles + 1 } }, false)
        else
          let dest := unique_path st.existing cfg.extraDir filename
          ({ counts := { st.counts with
               extra := st.counts.extra + 1,
               totalFiles := st.counts.totalFiles + 1 },
             existing := st.existing ++ [dest],
             events := st.events ++ [Ev.copyFile path dest] }, false)

/-- `scan_path`, indexed by recursion-depth fuel.  `scanF (fuel + 1)` runs
one source-faithful step with `scanF fuel` as the recursive call; at fuel 0
the call is a no-op (every theorem below either holds for all fuels or is
stated at an explicit successor). -/
def scanF (cfg : Config) : Nat → String → FSTree → ScanState → ScanState × Bool
  | 0, _, _, st => (st, false)
  | fuel + 1, path, t, st => scanStep cfg (scanF cfg fuel) path t st

/-! ### Concrete run configuration used by the end-to-end claims

This mirrors the `__main__` setup for a source directory `/src`: the
destination taxonomy lives under `/src/sorted_files`, which also serves as
the normalized `SORTED_ROOT`, and the five output folders exist before the
scan starts. -/

def cfgEx : Config :=
  { sortedRoot := "/src/sorted_files"
    charaDir := "/src/sorted_files/chara"
    clothDir := "/src/sorted_files/cloth"
    sceneDir := "/src/sorted_files/scene"
    modDir := "/src/sorted_files/mod"
    extraDir := "/src/sorted_files/extra"
    tmpRoot := "/tmp/scratch" }

/-- All counters zero, as at the start of a run. -/
def czero : Counts := ⟨0, 0, 0, 0, 0, 0, 0, 0⟩

/-- Run state after `setup_sorted_folders`: the destination root and the
five category folders exist, no copies yet. -/
def st0 : ScanState :=
  { counts := czero
    existing := ["/src/sorted_files", "/src/sorted_files/chara", "/src/sorted_files/cloth",
                 "/src/sorted_files/scene", "/src/sorted_files/mod", "/src/sorted_files/extra"]
    events := [] }

/-- An image whose bytes contain the scene-format marker. -/
def aPng : FSTree := FSTree.file (some (asciiBytes "KoiKatuScene data")) none none none

/-- A corrupt archive: extraction raises, and so does entry enumeration. -/
def bZip : FSTree := FSTree.file none none none none

/-- A `.zipmod` file (its content is never inspected by the scanner). -/
def cZipmod : FSTree := FSTree.file none none none none

/-- The end-to-end source folder of the spec's final testable property,
after the tool has created `sorted_files` inside it. -/
def srcTree : FSTree :=
  FSTree.dir [("a.png", aPng), ("b.zip", bZip), ("c.zipmod", cZipmod),
              ("sorted_files", FSTree.dir [])]

/-- The state and exception flag after the end-to-end run. -/
def c3run : ScanState × Bool := scanF cfgEx 3 "/src" srcTree st0

/-- A `.png` file whose byte content cannot be read, so classification
yields `Unknown`. -/
def unknownPng : FSTree := FSTree.file none none none none

/-! ### Helper lemmas about the string model -/

theorem isPrefixOf_append_self (l t : List Char) : l.isPrefixOf (l ++ t) = true := by
  induction l with
  | nil => cases t <;> rfl
  | cons a l ih => simp [List.isPrefixOf, ih]

theorem startsW_self_append (a b : String) : startsW (a ++ b) a = true := by
  unfold startsW
  rw [String.data_append]
  exact isPrefixOf_append_self ..

theorem startsW_self (a : String) : startsW a a = true := by
  unfold startsW
  have h := isPrefixOf_append_self a.data []
  rwa [List.append_nil] at h

/-- Whatever the fuel, tree and state, a path whose normalized form starts
with the sorted root is skipped with no state change: this is the first
test of `scan_path`. -/
theorem scan_guard (cfg : Config) (fuel : Nat) (path : String) (t : FSTree) (st : ScanState)
    (h : startsW (normpath path) cfg.sortedRoot = true) :
    scanF cfg fuel path t st = (st, false) := by
  cases fuel with
  | zero => rfl
  | succ n => simp [scanF, scanStep, h]

/-- C10: the exclusion test is a plain string-prefix test on the normalized
path, so every path whose normalized string form begins with the
`SORTED_ROOT` string — whether or not it actually lies under the
destination tree — is returned from immediately, with no copies and no
counter changes. -/
theorem string_guard_skips_all (cfg : Config) (fuel : Nat) (path : String)
    (t : FSTree) (st : ScanState)
    (h : startsW (normpath path) cfg.sortedRoot = true) :
    scanF cfg fuel path t st = (st, false) :=
  scan_guard cfg fuel path t st h

/-- Witness for C10: `/src/sorted_files_backup` is a sibling of the
destination root, not under it, yet it is skipped entirely. -/
theorem string_guard_skips_all_witness :
    startsW (normpath "/src/sorted_files_backup") cfgEx.sortedRoot = true
    ∧ scanF cfgEx 5 "/src/sorted_files_backup" srcTree st0 = (st0, false) :=
  ⟨by decide, string_guard_skips_all cfgEx 5 "/src/sorted_files_backup" srcTree st0 (by decide)⟩

/-- C6: every path that lies under `SORTED_ROOT` after normalization (the
root itself, or any path of the form `root/rest`) is returned from
immediately, before any other branch is examined: no copies, no counter
changes, for every tree and every state. -/
theorem under_sorted_root_skipped (cfg : Config) (fuel : Nat) (path : String)
    (t : FSTree) (st : ScanState)
    (h : normpath path = cfg.sortedRoot
        ∨ ∃ rest, normpath path = cfg.sortedRoot ++ "/" ++ rest) :
    scanF cfg fuel path t st = (st, false) := by
  apply scan_guard
  rcases h with h | ⟨rest, h⟩
  · rw [h]; exact startsW_self _
  · rw [h, String.append_assoc]; exact startsW_self_append ..

/-- Witness for C6: scanning the destination root itself (here with a tree
in place of whatever it contains) changes nothing, and the same holds for a
subfolder of the destination root. -/
theorem under_sorted_root_skipped_witness :
    (normpath "/src/sorted_files" = cfgEx.sortedRoot
        ∨ ∃ rest, normpath "/src/sorted_files" = cfgEx.sortedRoot ++ "/" ++ rest)
    ∧ scanF cfgEx 5 "/src/sorted_files" srcTree st0 = (st0, false)
    ∧ scanF cfgEx 5 "/src/sorted_files/scene" srcTree st0 = (st0, false) :=
  ⟨Or.inl (by decide),
   under_sorted_root_skipped cfgEx 5 "/src/sorted_files" srcTree st0 (Or.inl (by decide)),
   under_sorted_root_skipped cfgEx 5 "/src/sorted_files/scene" srcTree st0
     (Or.inr ⟨"scene", by decide⟩)⟩

/-! ### C1, C2: the `COUNTS[card_type]` lookup on an `Unknown` card -/

/-- C1: on a `.png` classified `Unknown`, the scanner does copy the file to
the Extra destination under a unique name, but the following
`COUNTS[card_type] += 1` looks up the key `"Unknown"`, which is not in the
dictionary: a `KeyError` is raised (flag `true`), and neither `Extra` nor
`TotalFiles` nor any other counter is incremented. -/
theorem unknown_png_copied_then_keyerror :
    detect_koikatsu_card_type "/src/u.png" none none = "Unknown"
    ∧ incrCount czero "Unknown" = none
    ∧ scanF cfgEx 1 "/src/u.png" unknownPng st0 =
      ({ counts := czero,
         existing := st0.existing ++ ["/src/sorted_files/extra/u.png"],
         events := [Ev.copyFile "/src/u.png" "/src/sorted_files/extra/u.png"] }, true) := by
  decide

/-- C2: a per-entry error is not always absorbed: scanning a directory that
contains an unreadable `.png` (classified `Unknown`) raises `KeyError` out
of `scan_path` itself — the exception flag propagates through the directory
recursion, and the sibling entry `v.txt` is never visited (no event for
it). -/
theorem scan_exception_escapes :
    (scanF cfgEx 2 "/src" (FSTree.dir [("u.png", unknownPng), ("v.txt", bZip)]) st0).2 = true
    ∧ (scanF cfgEx 2 "/src" (FSTree.dir [("u.png", unknownPng), ("v.txt", bZip)]) st0).1.events
      = [Ev.copyFile "/src/u.png" "/src/sorted_files/extra/u.png"] := by
  decide

/-! ### C3: the end-to-end run -/

/-- C3 counterexample: in the end-to-end scenario (one scene-marker image
`a.png`, one corrupt archive `b.zip`, one `c.zipmod`), the final counters
are `Scene=1, Archives=1, Errors=1, Mod=1` as claimed, but `TotalFiles` is
not 3: the archive-failure branch increments `Errors` without
`TotalFiles`. -/
theorem end_to_end_totalfiles_not_three :
    c3run.1.counts.scene = 1 ∧ c3run.1.counts.archives = 1
    ∧ c3run.1.counts.errors = 1 ∧ c3run.1.counts.mod = 1
    ∧ c3run.1.counts.totalFiles ≠ 3 := by
  decide

/-- C3 amended: the run ends with `Scene=1, Archives=1, Errors=1, Mod=1,
TotalFiles=2` (the failed archive is not counted in `TotalFiles`), with
`b.zip` copied unmodified into the Extra folder and `c.zipmod` copied into
the Mod folder, and no exception. -/
theorem end_to_end_run_result :
    c3run =
      ({ counts := ⟨0, 0, 1, 1, 0, 1, 1, 2⟩,
         existing := st0.existing ++
           ["/src/sorted_files/scene/a.png", "/src/sorted_files/extra/b.zip",
            "/src/sorted_files/mod/c.zipmod"],
         events := [Ev.copyFile "/src/a.png" "/src/sorted_files/scene/a.png",
                    Ev.copyFile "/src/b.zip" "/src/sorted_files/extra/b.zip",
                    Ev.copyFile "/src/c.zipmod" "/src/sorted_files/mod/c.zipmod"] }, false) := by
  decide

/-! ### C7: a `BepInEx` child consumes its directory level -/

theorem findBep_isSome_of_mem (entries : List (String × FSTree))
    (h : ∃ e ∈ entries, lowerStr e.1 = "bepinex" ∧ isDirT e.2 = true) :
    ∃ p, findBep entries = some p := by
  induction entries with
  | nil => obtain ⟨e, he, _⟩ := h; cases he
  | cons a rest ih =>
      obtain ⟨e, he, hcond⟩ := h
      by_cases ha : lowerStr a.1 = "bepinex" ∧ isDirT a.2 = true
      · exact ⟨a, by simp [findBep, ha]⟩
      · have hm : e ∈ rest := by
          rcases List.mem_cons.mp he with rfl | hr
          · exact absurd hcond ha
          · exact hr
        obtain ⟨p, hp⟩ := ih ⟨e, hm, hcond⟩
        exact ⟨p, by simp [findBep, ha, hp]⟩

/-- C7: if a scanned directory (not under the sorted root) has an immediate
entry whose lower-cased name is `bepinex` and which is itself a directory,
then `scan_path` copies that subtree to a unique slot directly under
`SORTED_ROOT`, increments exactly `TotalFiles` (by one), records exactly
that one copy event, and returns — no sibling entry of this level is
visited. -/
theorem bepinex_consumes_level (cfg : Config) (fuel : Nat) (path : String)
    (entries : List (String × FSTree)) (st : ScanState)
    (hg : startsW (normpath path) cfg.sortedRoot = false)
    (hb : ∃ e ∈ entries, lowerStr e.1 = "bepinex" ∧ isDirT e.2 = true) :
    ∃ nm sub, findBep entries = some (nm, sub)
      ∧ scanF cfg (fuel + 1) path (FSTree.dir entries) st =
        ({ counts := { st.counts with totalFiles := st.counts.totalFiles + 1 },
           existing := st.existing ++ [unique_path st.existing cfg.sortedRoot "BepInEx"],
           events := st.events ++
             [Ev.copyTree (pjoin path nm) (unique_path st.existing cfg.sortedRoot "BepInEx")] },
         false) := by
  obtain ⟨⟨nm, sub⟩, hfind⟩ := findBep_isSome_of_mem entries hb
  exact ⟨nm, sub, hfind, by simp [scanF, scanStep, hg, hfind]⟩

/-- Witness for C7: a directory with a `BepInEx` child between two sibling
entries is relocated wholesale and the siblings are untouched. -/
theorem bepinex_consumes_level_witness :
    startsW (normpath "/src/game") cfgEx.sortedRoot = false
    ∧ (∃ e ∈ [("notes.txt", bZip), ("BepInEx", FSTree.dir []), ("cards", FSTree.dir [])],
        lowerStr e.1 = "bepinex" ∧ isDirT e.2 = true)
    ∧ ∃ nm sub,
        findBep [("notes.txt", bZip), ("BepInEx", FSTree.dir []), ("cards", FSTree.dir [])]
          = some (nm, sub)
        ∧ scanF cfgEx 1 "/src/game"
            (FSTree.dir [("notes.txt", bZip), ("BepInEx", FSTree.dir []), ("cards", FSTree.dir [])])
            st0 =
          ({ counts := { st0.counts with totalFiles := st0.counts.totalFiles + 1 },
             existing := st0.existing ++ [unique_path st0.existing cfgEx.sortedRoot "BepInEx"],
             events := st0.events ++
               [Ev.copyTree (pjoin "/src/game" nm)
                 (unique_path st0.existing cfgEx.sortedRoot "BepInEx")] }, false) :=
  ⟨by decide, by decide,
   bepinex_consumes_level cfgEx 0 "/src/game"
     [("notes.txt", bZip), ("BepInEx", FSTree.dir []), ("cards", FSTree.dir [])]
     st0 (by decide) (by decide)⟩

/-! ### C4, C5: the classifier always prefers Scene -/

theorem charaScore_le_four (dims : Option (Nat × Nat)) (data : List Nat) :
    charaScore dims data ≤ 4 := by
  rcases dims with _ | ⟨w, h⟩ <;> simp only [charaScore] <;> split_ifs <;> omega

theorem clothScore_le_four (data : List Nat) : clothScore data ≤ 4 := by
  unfold clothScore; split_ifs <;> omega

theorem sceneScore_ge_of_marker (path : String) (dims : Option (Nat × Nat)) (data : List Nat)
    (h : (hasSub sceneMarker1 data || hasSub sceneMarker2 data) = true) :
    4 ≤ sceneScore path dims data := by
  unfold sceneScore
  rw [if_pos h]
  omega

theorem sceneScore_ge_of_chara2 (path : String) (dims : Option (Nat × Nat)) (data : List Nat)
    (h : 2 ≤ charaCount data) :
    4 ≤ sceneScore path dims data := by
  unfold sceneScore
  rw [if_pos h]
  omega

/-- When the Scene score is at least 4 and dominates the other two
categories, the first-max reduction over the insertion order
`Scene, Character, Clothing` returns `Scene`. -/
theorem detect_scene_of_scores (path : String) (dims : Option (Nat × Nat)) (data : List Nat)
    (h4 : 4 ≤ sceneScore path dims data)
    (hc : charaScore dims data ≤ sceneScore path dims data)
    (hl : clothScore data ≤ sceneScore path dims data) :
    detect_koikatsu_card_type path dims (some data) = "Scene" := by
  have hngt : ¬ sceneScore path dims data < charaScore dims data := by omega
  have hncl : ¬ sceneScore path dims data < clothScore data := by omega
  have hnz : ¬ sceneScore path dims data = 0 := by omega
  simp [detect_koikatsu_card_type, hngt, hncl, hnz]

/-- C4: a file whose bytes contain a scene-format marker (either spelling)
classifies as `Scene`, for every image dimension signal — including the
dimensions that award a point to Character — and for every other byte
content. -/
theorem scene_marker_forces_scene (path : String) (dims : Option (Nat × Nat)) (data : List Nat)
    (h : hasSub sceneMarker1 data = true ∨ hasSub sceneMarker2 data = true) :
    detect_koikatsu_card_type path dims (some data) = "Scene" := by
  have hb : (hasSub sceneMarker1 data || hasSub sceneMarker2 data) = true := by
    rcases h with h | h <;> simp [h]
  have h4 := sceneScore_ge_of_marker path dims data hb
  exact detect_scene_of_scores path dims data h4
    (le_trans (charaScore_le_four dims data) h4)
    (le_trans (clothScore_le_four data) h4)

/-- Witness for C4: a scene-marker file whose dimensions are exactly the
character-card dimensions `252×352` still classifies as `Scene`. -/
theorem scene_marker_forces_scene_witness :
    hasSub sceneMarker1 (asciiBytes "xxKoiKatuSceneyy") = true
    ∧ detect_koikatsu_card_type "/s/card.png" (some (252, 352))
        (some (asciiBytes "xxKoiKatuSceneyy")) = "Scene" :=
  ⟨by decide,
   scene_marker_forces_scene "/s/card.png" (some (252, 352))
     (asciiBytes "xxKoiKatuSceneyy") (Or.inl (by decide))⟩

/-- C5: a file containing the character-format markers (both spellings
combined) at least twice classifies as `Scene`, not `Character`: the
repeated-marker rule adds 4 to Scene while Character can total at most 4,
and ties go to Scene. -/
theorem repeated_chara_marker_is_scene (path : String) (dims : Option (Nat × Nat))
    (data : List Nat) (h : 2 ≤ charaCount data) :
    detect_koikatsu_card_type path dims (some data) = "Scene"
    ∧ detect_koikatsu_card_type path dims (some data) ≠ "Character" := by
  have h4 := sceneScore_ge_of_chara2 path dims data h
  have hs := detect_scene_of_scores path dims data h4
    (le_trans (charaScore_le_four dims data) h4)
    (le_trans (clothScore_le_four data) h4)
  exact ⟨hs, by rw [hs]; decide⟩

/-- Witness for C5: two character markers (one of each spelling) with
character-card dimensions still classify as `Scene`. -/
theorem repeated_chara_marker_is_scene_witness :
    2 ≤ charaCount (asciiBytes "KoiKatuCharaKoikatuChara")
    ∧ detect_koikatsu_card_type "/s/card.png" (some (252, 352))
        (some (asciiBytes "KoiKatuCharaKoikatuChara")) = "Scene"
    ∧ detect_koikatsu_card_type "/s/card.png" (some (252, 352))
        (some (asciiBytes "KoiKatuCharaKoikatuChara")) ≠ "Character" :=
  ⟨by decide,
   (repeated_chara_marker_is_scene "/s/card.png" (some (252, 352))
     (asciiBytes "KoiKatuCharaKoikatuChara") (by decide)).1,
   (repeated_chara_marker_is_scene "/s/card.png" (some (252, 352))
     (asciiBytes "KoiKatuCharaKoikatuChara") (by decide)).2⟩

/-! ### C9: the pure-mod-bundle predicate -/

/-- C9: for a readable archive listing, `is_pure_mod_zip` returns `true`
exactly when the lower-cased first path segments of its entries cover only
`abdata` and `manifest.xml` and both actually occur (i.e. the top-level set
is exactly `{abdata, manifest.xml}`); a raised enumeration error returns
`false`. -/
theorem pure_mod_zip_characterization :
    (∀ names : List String,
      is_pure_mod_zip (some names) = true ↔
        ((∀ n ∈ names, lowerStr (firstSeg n) = "abdata" ∨ lowerStr (firstSeg n) = "manifest.xml")
          ∧ (∃ n ∈ names, lowerStr (firstSeg n) = "abdata")
          ∧ (∃ n ∈ names, lowerStr (firstSeg n) = "manifest.xml")))
    ∧ is_pure_mod_zip none = false := by
  constructor
  · intro names
    unfold is_pure_mod_zip
    rw [decide_eq_true_eq]
    constructor
    · intro hset
      refine ⟨?_, ?_, ?_⟩
      · intro n hn
        have hx : lowerStr (firstSeg n) ∈ topLevelSegs names := by
          unfold topLevelSegs
          rw [List.mem_toFinset]
          exact List.mem_map_of_mem _ hn
        rw [hset] at hx
        simpa [Finset.mem_insert, Finset.mem_singleton] using hx
      · have hx : ("abdata" : String) ∈ topLevelSegs names := by rw [hset]; simp
        unfold topLevelSegs at hx
        rw [List.mem_toFinset] at hx
        obtain ⟨n, hn, he⟩ := List.mem_map.mp hx
        exact ⟨n, hn, he⟩
      · have hx : ("manifest.xml" : String) ∈ topLevelSegs names := by rw [hset]; simp
        unfold topLevelSegs at hx
        rw [List.mem_toFinset] at hx
        obtain ⟨n, hn, he⟩ := List.mem_map.mp hx
        exact ⟨n, hn, he⟩
    · rintro ⟨hall, ⟨na, hna, hea⟩, ⟨nm, hnm, hem⟩⟩
      apply Finset.ext
      intro x
      simp only [topLevelSegs, List.mem_toFinset, List.mem_map, Finset.mem_insert,
        Finset.mem_singleton]
      constructor
      · rintro ⟨n, hn, rfl⟩
        exact hall n hn
      · rintro (rfl | rfl)
        · exact ⟨na, hna, hea⟩
        · exact ⟨nm, hnm, hem⟩
  · rfl

/-- Witness for C9: an archive with exactly `abdata/…` and `Manifest.XML`
on top is a pure mod bundle; adding a third top-level entry defeats it, and
an unreadable archive is never one. -/
theorem pure_mod_zip_characterization_witness :
    is_pure_mod_zip (some ["abdata/f.unity3d", "Manifest.XML"]) = true
    ∧ is_pure_mod_zip (some ["abdata/f.unity3d", "manifest.xml", "readme.txt"]) = false
    ∧ is_pure_mod_zip none = false :=
  ⟨(pure_mod_zip_characterization.1 _).mpr (by decide), by decide,
   pure_mod_zip_characterization.2⟩

/-! ### C8: `unique_path` -/

/-- Numeric value of a decimal digit string (left fold, used to invert
`natChars`). -/
def decVal (l : List Char) : Nat := l.foldl (fun a c => a * 10 + (c.toNat - 48)) 0

theorem decVal_append_digit (l : List Char) (c : Char) :
    decVal (l ++ [c]) = decVal l * 10 + (c.toNat - 48) := by
  simp [decVal, List.foldl_append]

theorem digitChar_toNat {d : Nat} (h : d < 10) : (Nat.digitChar d).toNat = 48 + d := by
  interval_cases d <;> decide

theorem natChars_decVal : ∀ fuel n : Nat, n < 10 ^ fuel → decVal (natChars fuel n) = n := by
  intro fuel
  induction fuel with
  | zero =>
      intro n h
      have hn : n = 0 := by simpa using h
      subst hn
      rfl
  | succ fuel ih =>
      intro n h
      by_cases h10 : n < 10
      · have heq : natChars (fuel + 1) n = [Nat.digitChar n] := by simp [natChars, h10]
        rw [heq]
        have : decVal [Nat.digitChar n] = (Nat.digitChar n).toNat - 48 := by
          simp [decVal]
        rw [this, digitChar_toNat h10]
        omega
      · have heq : natChars (fuel + 1) n
            = natChars fuel (n / 10) ++ [Nat.digitChar (n % 10)] := by
          simp [natChars, h10]
        have hdiv : n / 10 < 10 ^ fuel := by
          have hp : (10 : Nat) ^ (fuel + 1) = 10 ^ fuel * 10 := pow_succ 10 fuel
          exact (Nat.div_lt_iff_lt_mul (by norm_num)).mpr (by omega)
        rw [heq, decVal_append_digit, ih (n / 10) hdiv,
          digitChar_toNat (Nat.mod_lt n (by omega))]
        omega

theorem natChars_inj {a b : Nat} (h : natChars (a + 1) a = natChars (b + 1) b) : a = b := by
  have ha : a < 10 ^ (a + 1) :=
    lt_of_lt_of_le (Nat.lt_pow_self (by norm_num) a)
      (Nat.pow_le_pow_right (by norm_num) (Nat.le_succ a))
  have hb : b < 10 ^ (b + 1) :=
    lt_of_lt_of_le (Nat.lt_pow_self (by norm_num) b)
      (Nat.pow_le_pow_right (by norm_num) (Nat.le_succ b))
  calc a = decVal (natChars (a + 1) a) := (natChars_decVal _ _ ha).symm
    _ = decVal (natChars (b + 1) b) := by rw [h]
    _ = b := natChars_decVal _ _ hb

theorem candName_data (stem ext : String) (k : Nat) :
    (candName stem k ext).data
      = stem.data ++ '(' :: ((natStr k).data ++ ')' :: ext.data) := by
  simp [candName, String.data_append, show "(".data = ['('] from rfl,
    show ")".data = [')'] from rfl]

theorem string_append_cancel_left {a b c : String} (h : a ++ b = a ++ c) : b = c := by
  have hd := congrArg String.data h
  rw [String.data_append, String.data_append] at hd
  have hbc := List.append_cancel_left hd
  cases b
  cases c
  exact congrArg String.mk hbc

theorem candName_inj {stem ext : String} {j k : Nat}
    (h : candName stem j ext = candName stem k ext) : j = k := by
  have hd := congrArg String.data h
  rw [candName_data, candName_data] at hd
  have h1 := List.append_cancel_left hd
  injection h1 with _ h2
  have h3 : (natStr j).data = (natStr k).data := List.append_cancel_right h2
  exact natChars_inj h3

theorem nil_isPrefixOf (l : List Char) : List.isPrefixOf [] l = true := by
  cases l <;> rfl

theorem startsW_slash_candName (stem ext : String) (j k : Nat) :
    startsW (candName stem j ext) "/" = startsW (candName stem k ext) "/" := by
  unfold startsW
  rw [show "/".data = ['/'] from rfl, candName_data, candName_data]
  cases stem.data with
  | nil => simp [List.isPrefixOf, nil_isPrefixOf]
  | cons c t => simp [List.isPrefixOf, nil_isPrefixOf]

theorem pjoin_candName_inj (folder stem ext : String) {j k : Nat}
    (h : pjoin folder (candName stem j ext) = pjoin folder (candName stem k ext)) : j = k := by
  have hss := startsW_slash_candName stem ext j k
  unfold pjoin at h
  by_cases h1 : startsW (candName stem j ext) "/" = true
  · have h1k : startsW (candName stem k ext) "/" = true := by rw [← hss]; exact h1
    rw [if_pos h1, if_pos h1k] at h
    exact candName_inj h
  · have h1k : ¬ startsW (candName stem k ext) "/" = true := by rw [← hss]; exact h1
    rw [if_neg h1, if_neg h1k] at h
    by_cases h2 : folder = "" ∨ endsW folder "/" = true
    · rw [if_pos h2, if_pos h2] at h
      exact candName_inj (string_append_cancel_left h)
    · rw [if_neg h2, if_neg h2] at h
      exact candName_inj (string_append_cancel_left h)

/-- In any window of `|fs| + 1` consecutive probe candidates at least one
path is free: the candidates are pairwise distinct, so they cannot all lie
in `fs`. -/
theorem exists_free_cand (fs : List String) (folder stem ext : String) (k : Nat) :
    ∃ j, j < fs.length + 1 ∧ pjoin folder (candName stem (k + j) ext) ∉ fs := by
  by_contra hc
  push_neg at hc
  set L := (List.range (fs.length + 1)).map
    (fun j => pjoin folder (candName stem (k + j) ext)) with hL
  have hnd : L.Nodup := by
    refine List.Nodup.map ?_ (List.nodup_range _)
    intro x y hxy
    have hk := pjoin_candName_inj folder stem ext hxy
    omega
  have hsub : ∀ x ∈ L, x ∈ fs := by
    intro x hx
    obtain ⟨j, hj, rfl⟩ := List.mem_map.mp hx
    exact hc j (List.mem_range.mp hj)
  have hcard1 : L.toFinset.card = fs.length + 1 := by
    rw [List.toFinset_card_of_nodup hnd]
    simp [hL]
  have hcard2 : L.toFinset.card ≤ fs.length := by
    refine le_trans (Finset.card_le_card ?_) (List.toFinset_card_le fs)
    intro x hx
    rw [List.mem_toFinset] at hx ⊢
    exact hsub x hx
  omega

/-- Behavior of the probe loop when some candidate inside the fuel window
is free: the loop stops at the first free candidate, every earlier
candidate exists. -/
theorem upLoop_spec (fs : List String) (folder stem ext : String) :
    ∀ fuel k : Nat, (∃ j, j < fuel ∧ pjoin folder (candName stem (k + j) ext) ∉ fs) →
      ∃ m, k ≤ m
        ∧ upLoop fs folder stem ext k fuel = pjoin folder (candName stem m ext)
        ∧ pjoin folder (candName stem m ext) ∉ fs
        ∧ ∀ i, k ≤ i → i < m → pjoin folder (candName stem i ext) ∈ fs := by
  intro fuel
  induction fuel with
  | zero =>
      rintro k ⟨j, hj, _⟩
      omega
  | succ fuel ih =>
      rintro k ⟨j, hj, hfree⟩
      by_cases hd : pjoin folder (candName stem k ext) ∈ fs
      · have hj0 : j ≠ 0 := by
          rintro rfl
          rw [Nat.add_zero] at hfree
          exact hfree hd
        obtain ⟨m, hm, heq, hnm, hall⟩ := ih (k + 1)
          ⟨j - 1, by omega, by
            have hkj : k + 1 + (j - 1) = k + j := by omega
            rw [hkj]; exact hfree⟩
        refine ⟨m, by omega, ?_, hnm, ?_⟩
        · simp only [upLoop]
          rw [if_pos hd]
          exact heq
        · intro i h1 h2
          rcases Nat.eq_or_lt_of_le h1 with rfl | hlt
          · exact hd
          · exact hall i (by omega) h2
      · refine ⟨k, le_refl k, ?_, hd, ?_⟩
        · simp only [upLoop]
          rw [if_neg hd]
        · intro i h1 h2
          omega

/-- The path `unique_path` returns never exists already. -/
theorem unique_path_not_mem (fs : List String) (folder filename : String) :
    unique_path fs folder filename ∉ fs := by
  simp only [unique_path]
  by_cases hd : pjoin folder filename ∈ fs
  · rw [if_pos hd]
    obtain ⟨j, hj, hfree⟩ :=
      exists_free_cand fs folder (splitext filename).1 (splitext filename).2 1
    obtain ⟨m, _, heq, hnm, _⟩ :=
      upLoop_spec fs folder (splitext filename).1 (splitext filename).2
        (fs.length + 1) 1 ⟨j, hj, hfree⟩
    rw [heq]
    exact hnm
  · rw [if_neg hd]
    exact hd

/-- C8: `unique_path(folder, filename)` returns `folder/filename` when that
path does not exist; otherwise it returns `folder/stem(k)ext` for the first
counter `k ≥ 1` whose path does not exist (all earlier probes exist).  The
returned path never exists — in particular it is distinct from every
existing path — and any later call whose existing-set contains this result
(as it does once the caller performs the copy) returns something different.
The function itself is pure: it only consults `fs` and creates nothing. -/
theorem unique_path_spec (fs : List String) (folder filename : String) :
    (pjoin folder filename ∉ fs → unique_path fs folder filename = pjoin folder filename)
    ∧ unique_path fs folder filename ∉ fs
    ∧ (pjoin folder filename ∈ fs →
        ∃ k, 1 ≤ k
          ∧ unique_path fs folder filename
            = pjoin folder (candName (splitext filename).1 k (splitext filename).2)
          ∧ pjoin folder (candName (splitext filename).1 k (splitext filename).2) ∉ fs
          ∧ ∀ j, 1 ≤ j → j < k →
              pjoin folder (candName (splitext filename).1 j (splitext filename).2) ∈ fs)
    ∧ ∀ (fs2 : List String) (folder2 filename2 : String),
        unique_path fs folder filename ∈ fs2 →
        unique_path fs2 folder2 filename2 ≠ unique_path fs folder filename := by
  refine ⟨?_, unique_path_not_mem fs folder filename, ?_, ?_⟩
  · intro hd
    simp only [unique_path]
    rw [if_neg hd]
  · intro hd
    obtain ⟨j, hj, hfree⟩ :=
      exists_free_cand fs folder (splitext filename).1 (splitext filename).2 1
    obtain ⟨m, hm, heq, hnm, hall⟩ :=
      upLoop_spec fs folder (splitext filename).1 (splitext filename).2
        (fs.length + 1) 1 ⟨j, hj, hfree⟩
    refine ⟨m, hm, ?_, hnm, fun i h1 h2 => hall i h1 h2⟩
    simp only [unique_path]
    rw [if_pos hd]
    exact heq
  · intro fs2 folder2 filename2 hmem heq
    have hnot := unique_path_not_mem fs2 folder2 filename2
    rw [heq] at hnot
    exact hnot hmem

/-- Witness for C8: with `a.png` and `a(1).png` taken, the first call
returns the fresh `a(2).png`. -/
theorem unique_path_spec_witness :
    pjoin "/d" "a.png" ∈ ["/d/a.png", "/d/a(1).png"]
    ∧ unique_path ["/d/a.png", "/d/a(1).png"] "/d" "a.png" ∉ ["/d/a.png", "/d/a(1).png"]
    ∧ unique_path ["/d/a.png", "/d/a(1).png"] "/d" "a.png" = "/d/a(2).png" :=
  ⟨by decide, (unique_path_spec ["/d/a.png", "/d/a(1).png"] "/d" "a.png").2.1, by decide⟩

end CardSorter
